import Mathlib

/-!
Verification of the saenopy finite-body-forces solver
(`src/cpp/FiniteBodyForces.py`).

The Python class `FiniteBodyForces` is embedded as a record `State` of its
numeric fields; NumPy arrays become functions out of `ℕ` (node / tetrahedron
index) and `Fin 3` / `Fin 4` (component / corner index), with exact rational
arithmetic in place of floating point.  The two scalar primitives the solver
takes from outside the repository — the material lookup table built by
`buildEpsilon` (an external collaborator module) and the square root used by
`np.linalg.norm` / `np.std` — are passed as explicit function parameters
`lu : ℚ → ℚ × ℚ × ℚ` and `sq : ℚ → ℚ`, so every definition below is a direct
transcription of the Python source.
-/

set_option maxRecDepth 10000

namespace Saenopy

/-- A per-node 3-vector field (rows of an `N_c × 3` NumPy array). -/
abbrev Arr := ℕ → Fin 3 → ℚ

/-- A 3 × 3 block. -/
abbrev M3 := Fin 3 → Fin 3 → ℚ

/-- One aligned entry of `self.connections` / `self.K_glo_conn`: the node
pair `(c1, c2)` together with its 3 × 3 stiffness block. -/
abbrev Conn := (ℕ × ℕ) × M3

/-- The all-zero node array (`np.zeros((N_c, 3))`). -/
def zeroArr : Arr := fun _ _ => 0

/-- `K_glo_conn[k] @ u[c2]` — the block-vector product contributed by one
connection (the einsum `"nij,nj->ni"` in `mulK` / `mulK_sparse`). -/
def connContrib (u : Arr) (c : Conn) (i : Fin 3) : ℚ :=
  ∑ j, c.2 i j * u c.1.2 j

/-- `FiniteBodyForces.mulK`: zero the output, then
`np.add.at(f, c1, np.einsum("nij,nj->ni", K_glo_conn, u[c2]))`, i.e. a
sequential accumulate of the per-connection products into row `c1`. -/
def mulK (conns : List Conn) (u : Arr) : Arr :=
  conns.foldl
    (fun f c => fun v i => if v = c.1.1 then f v i + connContrib u c i else f v i)
    zeroArr

/-- `FiniteBodyForces.mulK_sparse`: build the COO matrix whose entries are
`dout[k, i]` at coordinates `(c1[k], i)` and densify it; duplicate
coordinates accumulate, every other position is zero. -/
def mulK_sparse (conns : List Conn) (u : Arr) : Arr :=
  fun v i => (conns.map fun c => if c.1.1 = v then connContrib u c i else 0).sum

/-! Section: the solver state.

The fields of the Python class that the solver reads and writes.  `K_glo`
is the dense `N_c × N_c` grid of 3 × 3 blocks materialised by
`reshape_stiffnes2_sparse`; the per-connection blocks gathered by
`reshape_stiffnes2_again` live inside `connections`. -/

structure State where
  N_c : ℕ
  N_T : ℕ
  N_b : ℕ
  var : ℕ → Bool
  R : ℕ → Fin 3 → ℚ
  T : ℕ → Fin 4 → ℕ
  U : Arr
  f_glo : Arr
  f_ext : Arr
  Phi : ℕ → Fin 4 → Fin 3 → ℚ
  V : ℕ → ℚ
  E : ℕ → ℚ
  E_glo : ℚ
  s : ℕ → Fin 3 → ℚ
  connections : List Conn
  K_glo : ℕ → ℕ → M3

/-! Section: conjugate gradient (`solve_CG`). -/

/-- `np.sum(a * b)` over an `N_c × 3` array pair. -/
def adot (n : ℕ) (a b : Arr) : ℚ :=
  ∑ v ∈ Finset.range n, ∑ i, a v i * b v i

/-- `tol = 0.00001` in `solve_CG`. -/
def cg_tol : ℚ := 1 / 100000

/-- The right-hand side of the linear system as `solve_CG` builds it:
`ff = self.f_glo - self.f_ext` with `ff[~self.var, :] = 0`. -/
def cg_ff (st : State) : Arr :=
  fun v i => if st.var v then st.f_glo v i - st.f_ext v i else 0

/-- `normb = np.sum(ff * ff)`. -/
def cg_normb (st : State) : ℚ := adot st.N_c (cg_ff st) (cg_ff st)

/-- Result of the CG inner loop: final iterate `uu`, final residual vector
`rr`, whether the tolerance test broke the loop, and the number of
iterations that executed. -/
structure CGOut where
  uu : Arr
  rr : Arr
  early : Bool
  iters : ℕ

/-- The body `for i in range(1, maxiter + 1)` of `solve_CG`, with the
remaining iteration budget as structural fuel.  Each pass computes
`Ap = K·p`, `alpha = resid / ⟨p, Ap⟩`, updates `uu` and `rr`, and breaks
when `rsnew < tol * normb`; otherwise `pp ← rr + (rsnew/resid)·pp` and
`resid ← rsnew`. -/
def cgLoop (conns : List Conn) (n : ℕ) (tol normb : ℚ) :
    ℕ → Arr → Arr → Arr → ℚ → CGOut
  | 0, uu, rr, _, _ => ⟨uu, rr, false, 0⟩
  | fuel + 1, uu, rr, pp, resid =>
    let Ap := mulK_sparse conns pp
    let alpha := resid / adot n pp Ap
    let uu' : Arr := fun v i => uu v i + alpha * pp v i
    let rr' : Arr := fun v i => rr v i - alpha * Ap v i
    let rsnew := adot n rr' rr'
    if rsnew < tol * normb then ⟨uu', rr', true, 1⟩
    else
      let out := cgLoop conns n tol normb fuel uu' rr'
        (fun v i => rr' v i + rsnew / resid * pp v i) rsnew
      ⟨out.uu, out.rr, out.early, out.iters + 1⟩

/-- The CG run performed inside the `normb > 0` branch of `solve_CG`:
`uu = 0`, `kk = K·uu`, `rr = pp = ff - kk`, `resid = ⟨pp, pp⟩`, then at
most `maxiter = 3 * N_c` loop passes. -/
def cgRun (st : State) : CGOut :=
  let ff := cg_ff st
  let kk := mulK_sparse st.connections zeroArr
  let rr : Arr := fun v i => ff v i - kk v i
  let pp := rr
  let resid := adot st.N_c pp pp
  cgLoop st.connections st.N_c cg_tol (cg_normb st) (3 * st.N_c) zeroArr rr pp resid

/-- `FiniteBodyForces.solve_CG`: if `normb > 0`, run CG and apply
`self.U[self.var] += uu[self.var] * stepper`, returning
`du = np.sum(uu[self.var]**2) * stepper * stepper`; otherwise return `0`
and leave the state untouched. -/
def solve_CG (stepper : ℚ) (st : State) : ℚ × State :=
  if 0 < cg_normb st then
    let out := cgRun st
    let Unew : Arr := fun v i =>
      if st.var v then st.U v i + out.uu v i * stepper else st.U v i
    let du := (∑ v ∈ Finset.range st.N_c,
        if st.var v then ∑ i, out.uu v i * out.uu v i else 0) * stepper * stepper
    (du, { st with U := Unew })
  else (0, st)

/-! Section: the claimed CG right-hand side (C1). -/

/-- The right-hand side as the *claim* states it (`b = f_ext − f_glo` on
free rows, `0` on fixed rows) — written from the spec's words, to be
compared with `cg_ff`, which the code builds as `f_glo - f_ext`. -/
def cg_ff_claimed (st : State) : Arr :=
  fun v i => if st.var v then st.f_ext v i - st.f_glo v i else 0

/-- The same CG iteration as `cgRun`, but started on the claimed
right-hand side `f_ext − f_glo`. -/
def cgRun_claimed (st : State) : CGOut :=
  let ff := cg_ff_claimed st
  let kk := mulK_sparse st.connections zeroArr
  let rr : Arr := fun v i => ff v i - kk v i
  let pp := rr
  let resid := adot st.N_c pp pp
  cgLoop st.connections st.N_c cg_tol
    (adot st.N_c (cg_ff_claimed st) (cg_ff_claimed st)) (3 * st.N_c) zeroArr rr pp resid

/-! Section: shape tensors (`computePhi`). -/

/-- The module-level `det` helper of `FiniteBodyForces.py` — the explicit
3×3 determinant formula, which is also the mathematical content of the
`np.linalg.det` call in `computePhi`. -/
def det (a : M3) : ℚ :=
  a 0 0 * a 1 1 * a 2 2 + a 0 1 * a 1 2 * a 2 0 + a 0 2 * a 2 1 * a 1 0
    - a 0 0 * a 1 2 * a 2 1 - a 1 1 * a 0 2 * a 2 0 - a 2 2 * a 0 1 * a 1 0

/-- The module-level `invert` helper of `FiniteBodyForces.py` — adjugate
entries divided by the determinant, which is also the mathematical content
of the `np.linalg.inv` call in `computePhi` (exact over `ℚ`). -/
def invert (a : M3) : M3 := fun i j =>
  if i = 0 then
    if j = 0 then (a 1 1 * a 2 2 - a 1 2 * a 2 1) / det a
    else if j = 1 then (a 0 2 * a 2 1 - a 0 1 * a 2 2) / det a
    else (a 0 1 * a 1 2 - a 1 1 * a 0 2) / det a
  else if i = 1 then
    if j = 0 then (a 1 2 * a 2 0 - a 1 0 * a 2 2) / det a
    else if j = 1 then (a 0 0 * a 2 2 - a 0 2 * a 2 0) / det a
    else (a 0 2 * a 1 0 - a 0 0 * a 1 2) / det a
  else
    if j = 0 then (a 1 0 * a 2 1 - a 1 1 * a 2 0) / det a
    else if j = 1 then (a 0 1 * a 2 0 - a 0 0 * a 2 1) / det a
    else (a 0 0 * a 1 1 - a 0 1 * a 1 0) / det a

/-- The constant helper matrix `Chi` of `computePhi`, rows
`(-1,-1,-1), (1,0,0), (0,1,0), (0,0,1)`. -/
def Chi : Fin 4 → Fin 3 → ℚ := fun m =>
  if m = 0 then fun _ => -1
  else if m = 1 then fun j => if j = 0 then 1 else 0
  else if m = 2 then fun j => if j = 1 then 1 else 0
  else fun j => if j = 2 then 1 else 0

/-- The tetrahedron matrix `B` of `computePhi`: column `j` is
`R[tet[j+1]] - R[tet[0]]`. -/
def tetB (st : State) (t : ℕ) : M3 := fun i j =>
  st.R (st.T t j.succ) i - st.R (st.T t 0) i

/-- `FiniteBodyForces.computePhi`: for every tetrahedron `t`,
`V[t] = |det B| / 6`; if `V[t] ≠ 0` then `Phi[t] = Chi @ B⁻¹`, otherwise
`Phi[t]` is left untouched (no error is raised for degenerate tetrahedra). -/
def computePhi (st : State) : State :=
  let Vnew : ℕ → ℚ := fun t => if t < st.N_T then |det (tetB st t)| / 6 else st.V t
  { st with
    V := Vnew
    Phi := fun t =>
      if t < st.N_T ∧ Vnew t ≠ 0 then
        fun m j => ∑ k, Chi m k * invert (tetB st t) k j
      else st.Phi t }

/-! Section: the energy / force / stiffness kernel (`updateGloFAndK`).

The scalar material lookup `lu` (the table built by the external
`buildEpsilon` collaborator: strain ↦ `(w, w', w'')`) and the square root
`sq` (`np.sqrt`, used by the `np.linalg.norm` overload
`sqrt(sum(A**2, axis))` and by `np.std`) are parameters. -/

/-- `u_T = U[T].transpose(0, 2, 1)` in `get_star_and_bar`. -/
def u_T (st : State) (t : ℕ) (i : Fin 3) (m : Fin 4) : ℚ := st.U (st.T t m) i

/-- `F = np.eye(3) + u_T @ Phi`: the deformation gradient of tetrahedron `t`. -/
def defGrad (st : State) (t : ℕ) (i j : Fin 3) : ℚ :=
  (if i = j then 1 else 0) + ∑ m, u_T st t i m * st.Phi t m j

/-- `s_bar = F @ s.T`. -/
def s_bar (st : State) (t : ℕ) (i : Fin 3) (b : ℕ) : ℚ :=
  ∑ j, defGrad st t i j * st.s b j

/-- `s_star = Phi @ s.T`. -/
def s_star (st : State) (t : ℕ) (m : Fin 4) (b : ℕ) : ℚ :=
  ∑ j, st.Phi t m j * st.s b j

/-- `s = np.linalg.norm(s_bar, axis=1)` in `zzEpsilons3`, via the module's
overload `sqrt(np.sum(A ** 2, axis=axis))`. -/
def stretch (sq : ℚ → ℚ) (st : State) (t b : ℕ) : ℚ :=
  sq (∑ i, s_bar st t i b ^ 2)

/-- The material lookup at strain `s - 1`:
`epsilon_b, epsbar_b, epsbarbar_b = lookUpEpsilon(s - 1)`. -/
def epsTriple (lu : ℚ → ℚ × ℚ × ℚ) (sq : ℚ → ℚ) (st : State) (t b : ℕ) : ℚ × ℚ × ℚ :=
  lu (stretch sq st t b - 1)

/-- `dEdsbar = -(epsbar_b / s) / N_b * V[:, None]`. -/
def dEdsbar (lu : ℚ → ℚ × ℚ × ℚ) (sq : ℚ → ℚ) (st : State) (t b : ℕ) : ℚ :=
  -((epsTriple lu sq st t b).2.1 / stretch sq st t b) / (st.N_b : ℚ) * st.V t

/-- `dEdsbarbar = ((s * epsbarbar_b - epsbar_b) / s**3) / N_b * V[:, None]`. -/
def dEdsbarbar (lu : ℚ → ℚ × ℚ × ℚ) (sq : ℚ → ℚ) (st : State) (t b : ℕ) : ℚ :=
  ((stretch sq st t b * (epsTriple lu sq st t b).2.2 - (epsTriple lu sq st t b).2.1)
      / stretch sq st t b ^ 3) / (st.N_b : ℚ) * st.V t

/-- `countEnergy = np.any(self.var[self.T], axis=1)`: does tetrahedron `t`
have at least one variable corner? -/
def countEnergy (st : State) (t : ℕ) : Bool :=
  (List.finRange 4).any fun m => st.var (st.T t m)

/-- `FiniteBodyForces.update_energy`: `E[:] = np.mean(epsilon_b, axis=1) * V`
and `E_glo = np.sum(E[countEnergy])`. -/
def update_energy (st : State) (epsilon_b : ℕ → ℕ → ℚ) : State :=
  let Enew : ℕ → ℚ := fun t => (∑ b ∈ Finset.range st.N_b, epsilon_b t b) / (st.N_b : ℚ) * st.V t
  { st with
    E := Enew
    E_glo := ∑ t ∈ Finset.range st.N_T, if countEnergy st t then Enew t else 0 }

/-- `f = np.einsum("tmb,tib,tb->tmi", s_star, s_bar, dEdsbar)` in
`update_f_glo`. -/
def f_tmi (lu : ℚ → ℚ × ℚ × ℚ) (sq : ℚ → ℚ) (st : State) (t : ℕ) (m : Fin 4) (i : Fin 3) : ℚ :=
  ∑ b ∈ Finset.range st.N_b, s_star st t m b * s_bar st t i b * dEdsbar lu sq st t b

/-- `reshape_f4`: scatter the per-corner forces into the per-node array,
`f_glo[T[t,m], i] += f[t,m,i]` (COO duplicate accumulation). -/
def update_f_glo (lu : ℚ → ℚ × ℚ × ℚ) (sq : ℚ → ℚ) (st : State) : Arr :=
  fun v i => ∑ t ∈ Finset.range st.N_T, ∑ m, if st.T t m = v then f_tmi lu sq st t m i else 0

/-- The einsum chain in `starbar`:
`total[t,m,r,i,l] = Σ_b s*_tmb s*_trb · ½ (h_tb s̄_tib s̄_tlb − δ_il g_tb)`. -/
def totalStiff (lu : ℚ → ℚ × ℚ × ℚ) (sq : ℚ → ℚ) (st : State)
    (t : ℕ) (m r : Fin 4) (i l : Fin 3) : ℚ :=
  ∑ b ∈ Finset.range st.N_b,
    s_star st t m b * s_star st t r b *
      (1 / 2 * (dEdsbarbar lu sq st t b * s_bar st t i b * s_bar st t l b
        - (if i = l then 1 else 0) * dEdsbar lu sq st t b))

/-- `reshape_stiffnes2_sparse`: scatter `total` into the dense stiffness
grid, `K_glo[T[t,m], T[t,r]] += total[t,m,r]` (COO duplicate
accumulation over the flattened key `T[t,r] + T[t,m]·N_c`). -/
def update_K_glo (lu : ℚ → ℚ × ℚ × ℚ) (sq : ℚ → ℚ) (st : State) : ℕ → ℕ → M3 :=
  fun a c i l => ∑ t ∈ Finset.range st.N_T, ∑ m, ∑ r,
    if st.T t m = a ∧ st.T t r = c then totalStiff lu sq st t m r i l else 0

/-- `FiniteBodyForces.updateGloFAndK`: recompute the energies, the global
force array and the stiffness operator (dense grid plus the per-connection
gather `K_glo_conn[k] = K_glo[connections[k]]` of
`reshape_stiffnes2_again`) from the current `U`. -/
def updateGloFAndK (lu : ℚ → ℚ × ℚ × ℚ) (sq : ℚ → ℚ) (st : State) : State :=
  let Knew := update_K_glo lu sq st
  let st1 := update_energy st fun t b => (epsTriple lu sq st t b).1
  { st1 with
    f_glo := update_f_glo lu sq st
    K_glo := Knew
    connections := st.connections.map fun c => (c.1, Knew c.1.1 c.1.2) }

/-! Section: the outer driver (`relax`). -/

/-- The state `relax` leaves behind when it stops, plus whether it stopped
by raising.  A Python exception propagates out of `relax` but the
`FiniteBodyForces` object keeps its mutated fields, which is what the
`State` component records. -/
inductive RelaxError where
  | relrecUnbound
deriving DecidableEq

/-- `np.mean(self.K_glo)` over the dense `N_c × N_c × 3 × 3` array. -/
def meanK (st : State) : ℚ :=
  (∑ a ∈ Finset.range st.N_c, ∑ c ∈ Finset.range st.N_c, ∑ i, ∑ l, st.K_glo a c i l)
    / ((st.N_c : ℚ) * st.N_c * 9)

/-- `np.sum(self.U[self.var]**2)`. -/
def sum_u_var (st : State) : ℚ :=
  ∑ v ∈ Finset.range st.N_c, if st.var v then ∑ i, st.U v i * st.U v i else 0

/-- One record appended to `relrec`:
`[np.mean(self.K_glo), self.E_glo, sum_u]`. -/
def relrecEntry (st : State) : ℚ × ℚ × ℚ := (meanK st, st.E_glo, sum_u_var st)

/-- `np.std(xs)`: the square root of the mean squared deviation. -/
def npStd (sq : ℚ → ℚ) (xs : List ℚ) : ℚ :=
  sq ((xs.map fun x => (x - xs.sum / (xs.length : ℚ)) ^ 2).sum / (xs.length : ℚ))

/-- The body `for i in range(i_max)` of `relax`.  Each pass runs
`solve_CG`, recomputes forces and stiffness, appends to `relrec` *only
when a record file name was supplied*, and for `i > 6` evaluates the
convergence test on the last five recorded `E_glo` values
(`np.array(relrec)[:-6:-1, 1]`) — which, when no record file name was
supplied, reads the never-assigned local `relrec` and raises
`UnboundLocalError`. -/
def relaxLoop (lu : ℚ → ℚ × ℚ × ℚ) (sq : ℚ → ℚ) (stepper rel_conv_crit : ℚ)
    (hasRec : Bool) : ℕ → ℕ → List (ℚ × ℚ × ℚ) → State → Option RelaxError × State
  | _, 0, _, st => (none, st)
  | i, fuel + 1, relrec, st =>
    let st2 := updateGloFAndK lu sq (solve_CG stepper st).2
    let relrec' := if hasRec then relrec ++ [relrecEntry st2] else relrec
    if 6 < i then
      if hasRec then
        let last_Es := (relrec'.reverse.take 5).map fun e => e.2.1
        let Emean := last_Es.sum / (last_Es.length : ℚ)
        let Estd := npStd sq last_Es / sq 5
        if Estd / Emean < rel_conv_crit then (none, st2)
        else relaxLoop lu sq stepper rel_conv_crit hasRec (i + 1) fuel relrec' st2
      else (some RelaxError.relrecUnbound, st2)
    else relaxLoop lu sq stepper rel_conv_crit hasRec (i + 1) fuel relrec' st2

/-- `FiniteBodyForces.relax`: an initial `updateGloFAndK`, an initial
`relrec` entry when a record file name was supplied (`hasRec`), then up to
`i_max` outer iterations.  Defaults in the source:
`stepper=0.066, i_max=300, rel_conv_crit=0.01`. -/
def relax (lu : ℚ → ℚ × ℚ × ℚ) (sq : ℚ → ℚ) (stepper : ℚ) (i_max : ℕ)
    (rel_conv_crit : ℚ) (hasRec : Bool) (st : State) : Option RelaxError × State :=
  let st0 := updateGloFAndK lu sq st
  relaxLoop lu sq stepper rel_conv_crit hasRec 0 i_max
    (if hasRec then [relrecEntry st0] else []) st0

/-! Section: `setMeshTets` and the 1-based to 0-based shift (C9). -/

/-- The fields written by `FiniteBodyForces.setMeshTets`. -/
structure TetMesh where
  T : List (List ℤ)
  N_T : ℕ
  Phi : ℕ → Fin 4 → Fin 3 → ℚ
  V : ℕ → ℚ
  E : ℕ → ℚ

/-- `FiniteBodyForces.setMeshTets`: stores `self.T = data - 1` (the
loaded values "start with 1 instead of 0 therefore −1") and allocates
zeroed `Phi`, `V`, `E` of length `N_T = data.shape[0]`. -/
def setMeshTets (data : List (List ℤ)) : TetMesh where
  T := data.map fun row => row.map fun x => x - 1
  N_T := data.length
  Phi := fun _ _ _ => 0
  V := fun _ => 0
  E := fun _ => 0

/-! Section: concrete states and parameters used by counterexamples and witnesses. -/

/-- A concrete solver state: a single fixed node, no tetrahedra, no beams,
everything zero. -/
def stTriv : State where
  N_c := 1
  N_T := 0
  N_b := 0
  var := fun _ => false
  R := fun _ _ => 0
  T := fun _ _ => 0
  U := fun _ _ => 0
  f_glo := fun _ _ => 0
  f_ext := fun _ _ => 0
  Phi := fun _ _ _ => 0
  V := fun _ => 0
  E := fun _ => 0
  E_glo := 0
  s := fun _ _ => 0
  connections := []
  K_glo := fun _ _ _ _ => 0

/-- A concrete one-free-node system with identity stiffness block and
force deviation `f_glo - f_ext = (1, 0, 0)`. -/
def stC1 : State :=
  { stTriv with
    var := fun _ => true
    f_glo := fun v i => if v = 0 ∧ i = 0 then 1 else 0
    connections := [((0, 0), fun i j => if i = j then 1 else 0)] }

/-- A concrete ill-scaled one-node system: stiffness block
`diag(1, 2, 1)`, force deviation `(1, 1/10000, 0)`. -/
def stC2 : State :=
  { stTriv with
    var := fun _ => true
    f_glo := fun v i =>
      if v = 0 then (if i = 0 then 1 else if i = 1 then 1 / 10000 else 0) else 0
    connections :=
      [((0, 0), fun i j => if i = j then (if i = 1 then 2 else 1) else 0)] }

/-- A concrete mesh whose single tetrahedron is degenerate: its four
corners `(0,0,0), (1,0,0), (0,1,0), (1,1,0)` are coplanar, so `V_t = 0`. -/
def stC4 : State :=
  { stTriv with
    N_c := 4
    N_T := 1
    T := fun _ m => (m : ℕ)
    R := fun v i =>
      if (v = 1 ∨ v = 3) ∧ i = 0 then 1
      else if (v = 2 ∨ v = 3) ∧ i = 1 then 1
      else 0 }

/-- A concrete mesh with one non-degenerate tetrahedron (the unit
tetrahedron). -/
def stC7 : State :=
  { stTriv with
    N_c := 4
    N_T := 1
    T := fun _ m => (m : ℕ)
    R := fun v i =>
      if v = 1 ∧ i = 0 then 1
      else if v = 2 ∧ i = 1 then 1
      else if v = 3 ∧ i = 2 then 1
      else 0 }

/-- A concrete two-tetrahedron state: tetrahedron `0` has all corners at
the fixed node `0`, tetrahedron `1` has all corners at the free node `1`. -/
def stC6 : State :=
  { stTriv with
    N_c := 2
    N_T := 2
    N_b := 2
    var := fun v => v == 1
    T := fun t _ => if t = 0 then 0 else 1
    V := fun t => if t = 0 then 3 else 5 }

/-- A concrete per-tetrahedron per-beam energy table. -/
def epsC6 : ℕ → ℕ → ℚ := fun t b => (t : ℚ) + (b : ℚ) + 1

/-- The constant-zero material lookup. -/
def lu0 : ℚ → ℚ × ℚ × ℚ := fun _ => (0, 0, 0)

/-- A constant stand-in for the square root parameter. -/
def sq1 : ℚ → ℚ := fun _ => 1

/-! Section: helper lemmas. -/

lemma mulK_foldl_acc (u : Arr) (conns : List Conn) (f : Arr) (v : ℕ) (i : Fin 3) :
    (conns.foldl
      (fun f c => fun v i => if v = c.1.1 then f v i + connContrib u c i else f v i)
      f) v i = f v i + mulK_sparse conns u v i := by
  induction conns generalizing f with
  | nil => simp [mulK_sparse]
  | cons c cs ih =>
    simp only [List.foldl_cons, mulK_sparse, List.map_cons, List.sum_cons] at *
    rw [ih]
    by_cases h : v = c.1.1
    · simp only [if_pos h, if_pos h.symm]
      ring
    · simp only [if_neg h, if_neg (Ne.symm h)]
      ring

lemma mulK_sparse_nil (u : Arr) (v : ℕ) (i : Fin 3) : mulK_sparse [] u v i = 0 := by
  simp [mulK_sparse]

lemma mulK_sparse_cons (c : Conn) (cs : List Conn) (u : Arr) (v : ℕ) (i : Fin 3) :
    mulK_sparse (c :: cs) u v i =
      (if c.1.1 = v then connContrib u c i else 0) + mulK_sparse cs u v i := by
  simp [mulK_sparse]

lemma connContrib_affine (u p : Arr) (a : ℚ) (c : Conn) (i : Fin 3) :
    connContrib (fun w j => u w j + a * p w j) c i
      = connContrib u c i + a * connContrib p c i := by
  simp only [connContrib, Finset.mul_sum, ← Finset.sum_add_distrib]
  exact Finset.sum_congr rfl fun j _ => by ring

lemma mulK_sparse_affine (conns : List Conn) (u p : Arr) (a : ℚ) (v : ℕ) (i : Fin 3) :
    mulK_sparse conns (fun w j => u w j + a * p w j) v i
      = mulK_sparse conns u v i + a * mulK_sparse conns p v i := by
  induction conns with
  | nil => simp [mulK_sparse_nil]
  | cons c cs ih =>
    rw [mulK_sparse_cons, mulK_sparse_cons, mulK_sparse_cons, ih, connContrib_affine]
    split_ifs <;> ring

/-- Loop invariant of `cgLoop`: if `K·uu = b - rr` going in, the same
relation holds between the returned iterate and residual (for arbitrary
step sizes, hence for whatever `alpha` the loop computes). -/
lemma cgLoop_residual_invariant (conns : List Conn) (n : ℕ) (tol normb : ℚ) (b : Arr) :
    ∀ (fuel : ℕ) (uu rr pp : Arr) (resid : ℚ),
      (∀ v i, mulK_sparse conns uu v i = b v i - rr v i) →
      ∀ (v : ℕ) (i : Fin 3),
        mulK_sparse conns (cgLoop conns n tol normb fuel uu rr pp resid).uu v i
          = b v i - (cgLoop conns n tol normb fuel uu rr pp resid).rr v i := by
  intro fuel
  induction fuel with
  | zero => intro uu rr pp resid h v i; simpa [cgLoop] using h v i
  | succ f ih =>
    intro uu rr pp resid h v i
    simp only [cgLoop]
    split
    · rw [mulK_sparse_affine, h v i]
      ring
    · exact ih _ _ _ _ (fun v i => by rw [mulK_sparse_affine, h v i]; ring) v i

/-- The executed iteration count of `cgLoop` never exceeds its budget. -/
lemma cgLoop_iters_le (conns : List Conn) (n : ℕ) (tol normb : ℚ) :
    ∀ (fuel : ℕ) (uu rr pp : Arr) (resid : ℚ),
      (cgLoop conns n tol normb fuel uu rr pp resid).iters ≤ fuel := by
  intro fuel
  induction fuel with
  | zero => intro uu rr pp resid; simp [cgLoop]
  | succ f ih =>
    intro uu rr pp resid
    simp only [cgLoop]
    split
    · simp
    · simpa using Nat.succ_le_succ (ih _ _ _ _)

/-- When `cgLoop` breaks early, the squared norm of the residual it returns
is below `tol * normb` — the threshold is linear in `tol`, not `tol²`. -/
lemma cgLoop_early_resid (conns : List Conn) (n : ℕ) (tol normb : ℚ) :
    ∀ (fuel : ℕ) (uu rr pp : Arr) (resid : ℚ),
      (cgLoop conns n tol normb fuel uu rr pp resid).early = true →
      adot n (cgLoop conns n tol normb fuel uu rr pp resid).rr
          (cgLoop conns n tol normb fuel uu rr pp resid).rr < tol * normb := by
  intro fuel
  induction fuel with
  | zero => intro uu rr pp resid h; simp [cgLoop] at h
  | succ f ih =>
    intro uu rr pp resid
    simp only [cgLoop]
    split
    · intro _
      assumption
    · exact ih _ _ _ _

lemma solve_CG_preserves_fixed (stepper : ℚ) (st : State) (v : ℕ) (i : Fin 3)
    (h : st.var v = false) : (solve_CG stepper st).2.U v i = st.U v i := by
  rw [solve_CG]
  split
  · simp [h]
  · rfl

lemma solve_CG_preserves_var (stepper : ℚ) (st : State) :
    (solve_CG stepper st).2.var = st.var := by
  rw [solve_CG]
  split <;> rfl

lemma updateGloFAndK_preserves_U (lu : ℚ → ℚ × ℚ × ℚ) (sq : ℚ → ℚ) (st : State) :
    (updateGloFAndK lu sq st).U = st.U := rfl

lemma updateGloFAndK_preserves_var (lu : ℚ → ℚ × ℚ × ℚ) (sq : ℚ → ℚ) (st : State) :
    (updateGloFAndK lu sq st).var = st.var := rfl

lemma relaxLoop_preserves_fixed (lu : ℚ → ℚ × ℚ × ℚ) (sq : ℚ → ℚ)
    (stepper crit : ℚ) (hasRec : Bool) :
    ∀ (fuel i : ℕ) (relrec : List (ℚ × ℚ × ℚ)) (st : State) (v : ℕ) (iC : Fin 3),
      st.var v = false →
      (relaxLoop lu sq stepper crit hasRec i fuel relrec st).2.U v iC = st.U v iC := by
  intro fuel
  induction fuel with
  | zero => intro i relrec st v iC _; rfl
  | succ f ih =>
    intro i relrec st v iC h
    have hvar2 : (updateGloFAndK lu sq (solve_CG stepper st).2).var v = false := by
      rw [updateGloFAndK_preserves_var, solve_CG_preserves_var]
      exact h
    have hU2 : (updateGloFAndK lu sq (solve_CG stepper st).2).U v iC = st.U v iC := by
      rw [updateGloFAndK_preserves_U]
      exact solve_CG_preserves_fixed stepper st v iC h
    simp only [relaxLoop]
    split
    · split
      · split
        · exact hU2
        · rw [ih _ _ _ _ _ hvar2]
          exact hU2
      · exact hU2
    · rw [ih _ _ _ _ _ hvar2]
      exact hU2

lemma relaxLoop_norec_raises (lu : ℚ → ℚ × ℚ × ℚ) (sq : ℚ → ℚ)
    (stepper crit : ℚ) :
    ∀ (fuel i : ℕ) (relrec : List (ℚ × ℚ × ℚ)) (st : State),
      0 < fuel → 7 < i + fuel →
      (relaxLoop lu sq stepper crit false i fuel relrec st).1
        = some RelaxError.relrecUnbound := by
  intro fuel
  induction fuel with
  | zero => intro i relrec st h0 _; exact absurd h0 (lt_irrefl 0)
  | succ f ih =>
    intro i relrec st _ h
    simp only [relaxLoop]
    split
    · simp
    · rename_i hi
      rw [ih (i + 1) _ _ (by omega) (by omega)]

/-! Section: the claims. -/

/-- C1 (counterexample): on `stC1` the displacement increment that
`solve_CG` actually applies to the free node is `stepper · (+1)` in the
x-component, while `stepper` times the CG solution of
`K · Δu = f_ext − f_glo` (the claim's system; here `K` is the identity
block, so `Δu = (−1, 0, 0)`) would be `stepper · (−1)`: the claim's
right-hand side has the wrong sign, the code solves `K · Δu = f_glo − f_ext`. -/
theorem solve_CG_rhs_sign_counterexample :
    (solve_CG 1 stC1).2.U 0 0 = 1 ∧
      (cgRun_claimed stC1).uu 0 0 = -1 ∧
      stC1.U 0 0 + (cgRun_claimed stC1).uu 0 0 * 1 ≠ (solve_CG 1 stC1).2.U 0 0 := by
  norm_num +decide [solve_CG, cgRun, cgRun_claimed, cgLoop, cg_normb, cg_ff,
    cg_ff_claimed, cg_tol, adot, mulK_sparse, connContrib, zeroArr, stC1, stTriv,
    Fin.sum_univ_three, Finset.sum_range_one,
    List.map_cons, List.map_nil, List.sum_cons, List.sum_nil]

/-- C1 (amended): in relax mode the CG step solves
`K · Δu = b` with `b = f_glo − f_ext` on free rows (and `0` on fixed
rows) — the opposite sign of the claimed `f_ext − f_glo` — and the outer
driver applies `U[free] += stepper · Δu[free]`: the returned iterate `uu`
satisfies `K · uu = b − r` (with `r` the final CG residual), and the new
`U` equals the old one plus `stepper · uu` exactly on free rows. -/
theorem solve_CG_solves_fglo_minus_fext (stepper : ℚ) (st : State)
    (h : 0 < cg_normb st) :
    (∀ (v : ℕ) (i : Fin 3),
        mulK_sparse st.connections (cgRun st).uu v i
          = cg_ff st v i - (cgRun st).rr v i) ∧
      ∀ (v : ℕ) (i : Fin 3),
        (solve_CG stepper st).2.U v i
          = if st.var v then st.U v i + (cgRun st).uu v i * stepper else st.U v i := by
  constructor
  · have h0 : ∀ (v : ℕ) (i : Fin 3),
        mulK_sparse st.connections zeroArr v i
          = cg_ff st v i
            - (cg_ff st v i - mulK_sparse st.connections zeroArr v i) := by
      intro v i; ring
    exact cgLoop_residual_invariant st.connections st.N_c cg_tol (cg_normb st)
      (cg_ff st) (3 * st.N_c) zeroArr _ _ _ h0
  · intro v i
    rw [solve_CG, if_pos h]

/-- Witness for `solve_CG_solves_fglo_minus_fext` on the concrete system
`stC1`, whose right-hand side is nonzero. -/
theorem solve_CG_solves_fglo_minus_fext_witness :
    0 < cg_normb stC1 ∧
      mulK_sparse stC1.connections (cgRun stC1).uu 0 0
          = cg_ff stC1 0 0 - (cgRun stC1).rr 0 0 ∧
      (solve_CG 1 stC1).2.U 0 0
          = if stC1.var 0 then stC1.U 0 0 + (cgRun stC1).uu 0 0 * 1
            else stC1.U 0 0 := by
  have h : 0 < cg_normb stC1 := by
    norm_num +decide [cg_normb, cg_ff, adot, stC1, stTriv,
      Fin.sum_univ_three, Finset.sum_range_one]
  exact ⟨h, (solve_CG_solves_fglo_minus_fext 1 stC1 h).1 0 0,
    (solve_CG_solves_fglo_minus_fext 1 stC1 h).2 0 0⟩

/-- C2 (counterexample): on `stC2`, CG stops early (before the
iteration cap) but the returned residual does *not* satisfy
`⟨r,r⟩ < tol² · ⟨b,b⟩ = (1e-5)² · ⟨b,b⟩`: the claimed squared tolerance is
wrong, the code stops at the much looser `tol · ⟨b,b⟩`. -/
theorem cg_tol_not_squared_counterexample :
    (cgRun stC2).early = true ∧
      ¬ adot stC2.N_c (cgRun stC2).rr (cgRun stC2).rr
          < cg_tol * cg_tol * cg_normb stC2 := by
  norm_num +decide [cgRun, cgLoop, cg_normb, cg_ff, cg_tol, adot, mulK_sparse,
    connContrib, zeroArr, stC2, stTriv, Fin.sum_univ_three, Finset.sum_range_one,
    List.map_cons, List.map_nil, List.sum_cons, List.sum_nil]

/-- C2 (amended): the CG loop executes at most `3 · N_c` iterations, and
whenever it stops early the returned residual satisfies
`⟨r,r⟩ < tol · ⟨b,b⟩` with `tol = 1e-5` — the code's threshold
`rsnew < tol * normb` is linear in `tol` (not `tol² · ⟨b,b⟩` as claimed,
since `normb` is already the squared norm `⟨b,b⟩`). -/
theorem cg_iteration_cap_and_early_stop (st : State) :
    (cgRun st).iters ≤ 3 * st.N_c ∧
      ((cgRun st).early = true →
        adot st.N_c (cgRun st).rr (cgRun st).rr < cg_tol * cg_normb st) := by
  constructor
  · exact cgLoop_iters_le _ _ _ _ _ _ _ _ _
  · exact cgLoop_early_resid _ _ _ _ _ _ _ _ _

/-- Witness for `cg_iteration_cap_and_early_stop`: on `stC2` the loop does
stop early and its residual is below the linear threshold. -/
theorem cg_iteration_cap_and_early_stop_witness :
    (cgRun stC2).iters ≤ 3 * stC2.N_c ∧
      ((cgRun stC2).early = true ∧
        adot stC2.N_c (cgRun stC2).rr (cgRun stC2).rr < cg_tol * cg_normb stC2) := by
  have h : (cgRun stC2).early = true := by
    norm_num +decide [cgRun, cgLoop, cg_normb, cg_ff, cg_tol, adot, mulK_sparse,
      connContrib, zeroArr, stC2, stTriv, Fin.sum_univ_three, Finset.sum_range_one,
      List.map_cons, List.map_nil, List.sum_cons, List.sum_nil]
  exact ⟨(cg_iteration_cap_and_early_stop stC2).1, h,
    (cg_iteration_cap_and_early_stop stC2).2 h⟩

/-- C3 (the code bug): when `relax` is called without a record file
name, the convergence test at outer iteration `i = 7` reads the local
variable `relrec`, which was never assigned in that case: *every* call of
`relax` with `relrecname=None` and `i_max ≥ 8` raises `UnboundLocalError`
instead of applying the sliding-window energy test — on any mesh, material
model, or parameters. -/
theorem relax_no_recname_raises_unbound_relrec (lu : ℚ → ℚ × ℚ × ℚ) (sq : ℚ → ℚ)
    (stepper crit : ℚ) (i_max : ℕ) (st : State) (h : 8 ≤ i_max) :
    (relax lu sq stepper i_max crit false st).1 = some RelaxError.relrecUnbound := by
  simp only [relax]
  exact relaxLoop_norec_raises lu sq stepper crit i_max 0 _ _ (by omega) (by omega)

/-- Witness for `relax_no_recname_raises_unbound_relrec` at the default
iteration budget range (`i_max = 8`) on a concrete state. -/
theorem relax_no_recname_raises_unbound_relrec_witness :
    8 ≤ 8 ∧
      (relax lu0 sq1 (33 / 500) 8 (1 / 100) false stTriv).1
        = some RelaxError.relrecUnbound :=
  ⟨le_refl 8,
   relax_no_recname_raises_unbound_relrec lu0 sq1 (33 / 500) (1 / 100) 8 stTriv (le_refl 8)⟩

/-- C4 (counterexample): loading a mesh containing a tetrahedron with
four coplanar corners raises no error at all: `computePhi` records
`V_t = 0`, silently leaves `Φ_t` at its initial zero value, and the solve
proceeds (here `solve_CG` runs normally on the resulting state). -/
theorem computePhi_degenerate_no_error_counterexample :
    (computePhi stC4).V 0 = 0 ∧
      (computePhi stC4).Phi 0 0 0 = 0 ∧
      (solve_CG 1 (computePhi stC4)).1 = 0 := by
  refine ⟨?_, ?_, ?_⟩
  · norm_num +decide [computePhi, det, tetB, stC4, stTriv]
  · norm_num +decide [computePhi, det, tetB, stC4, stTriv]
  · norm_num +decide [solve_CG, cg_normb, cg_ff, adot, computePhi, stC4, stTriv,
      Fin.sum_univ_three, Finset.sum_range_succ, Finset.sum_range_zero]

/-- C4 (amended): for a tetrahedron whose four corners are coplanar
(`det B = 0`), `computePhi` does not raise: it sets `V_t = 0` and leaves
`Φ_t` exactly as it was (the zero tensor allocated by `setMeshTets`), and
computation continues with those values. -/
theorem computePhi_degenerate_skipped (st : State) (t : ℕ) (ht : t < st.N_T)
    (hdet : det (tetB st t) = 0) :
    (computePhi st).V t = 0 ∧
      ∀ (m : Fin 4) (j : Fin 3), (computePhi st).Phi t m j = st.Phi t m j := by
  refine ⟨by simp [computePhi, ht, hdet], fun m j => ?_⟩
  simp only [computePhi]
  rw [if_neg]
  intro hc
  exact hc.2 (by simp [ht, hdet])

/-- Witness for `computePhi_degenerate_skipped` on the concrete coplanar
mesh `stC4`. -/
theorem computePhi_degenerate_skipped_witness :
    0 < stC4.N_T ∧ det (tetB stC4 0) = 0 ∧
      (computePhi stC4).V 0 = 0 ∧ (computePhi stC4).Phi 0 0 0 = stC4.Phi 0 0 0 := by
  have h1 : (0 : ℕ) < stC4.N_T := by norm_num [stC4, stTriv]
  have h2 : det (tetB stC4 0) = 0 := by
    norm_num +decide [det, tetB, stC4, stTriv]
  exact ⟨h1, h2, (computePhi_degenerate_skipped stC4 0 h1 h2).1,
    (computePhi_degenerate_skipped stC4 0 h1 h2).2 0 0⟩

/-- C5: if the masked force deviation vanishes (`⟨b,b⟩ = 0`, i.e.
`normb = np.sum(ff*ff) == 0`) then `solve_CG` takes the `else` branch:
it returns `du = 0` immediately, performs no CG iteration, and the state —
in particular `U` — is returned unmodified. -/
theorem solve_CG_zero_rhs_returns_immediately (stepper : ℚ) (st : State)
    (h : cg_normb st = 0) : solve_CG stepper st = (0, st) := by
  rw [solve_CG, if_neg]
  rw [h]
  exact lt_irrefl 0

/-- Witness for `solve_CG_zero_rhs_returns_immediately` on a concrete state
whose right-hand side is identically zero. -/
theorem solve_CG_zero_rhs_returns_immediately_witness :
    cg_normb stTriv = 0 ∧ solve_CG 1 stTriv = (0, stTriv) :=
  ⟨by norm_num [cg_normb, adot, cg_ff, stTriv],
   solve_CG_zero_rhs_returns_immediately 1 stTriv
     (by norm_num [cg_normb, adot, cg_ff, stTriv])⟩

/-- C6: `update_energy` sets `E_t = V_t · mean_b(w_tb)` and sums into
`E_glo` exactly the tetrahedra with at least one variable corner;
tetrahedra whose four corners are all fixed contribute nothing. -/
theorem update_energy_mean_and_free_tets (st : State) (eps : ℕ → ℕ → ℚ) (t : ℕ)
    (ht : t < st.N_T) :
    (update_energy st eps).E t
        = st.V t * ((∑ b ∈ Finset.range st.N_b, eps t b) / (st.N_b : ℚ)) ∧
      (update_energy st eps).E_glo
        = ∑ t' ∈ (Finset.range st.N_T).filter
            (fun t' => ∃ m : Fin 4, st.var (st.T t' m) = true),
            (update_energy st eps).E t' := by
  have _ := ht
  constructor
  · simp only [update_energy]
    ring
  · have hiff : ∀ t' : ℕ,
        countEnergy st t' = true ↔ ∃ m : Fin 4, st.var (st.T t' m) = true := by
      intro t'
      simp [countEnergy, List.any_eq_true, List.mem_finRange]
    simp only [update_energy, Finset.sum_filter]
    exact Finset.sum_congr rfl fun t' _ => if_congr (hiff t') rfl rfl

/-- Witness for `update_energy_mean_and_free_tets` on `stC6`. -/
theorem update_energy_mean_and_free_tets_witness :
    0 < stC6.N_T ∧
      ((update_energy stC6 epsC6).E 0
          = stC6.V 0 * ((∑ b ∈ Finset.range stC6.N_b, epsC6 0 b) / (stC6.N_b : ℚ)) ∧
        (update_energy stC6 epsC6).E_glo
          = ∑ t' ∈ (Finset.range stC6.N_T).filter
              (fun t' => ∃ m : Fin 4, stC6.var (stC6.T t' m) = true),
              (update_energy stC6 epsC6).E t') :=
  ⟨by norm_num [stC6, stTriv],
   update_energy_mean_and_free_tets stC6 epsC6 0 (by norm_num [stC6, stTriv])⟩

/-- C7: for every tetrahedron with nonzero computed volume, the four
rows of the shape tensor `Φ_t = Χ · B⁻¹` sum to the zero 3-vector, because
the rows of `Χ` sum to zero. -/
theorem computePhi_rows_sum_zero (st : State) (t : ℕ) (ht : t < st.N_T)
    (hV : (computePhi st).V t ≠ 0) (j : Fin 3) :
    ∑ m, (computePhi st).Phi t m j = 0 := by
  have h2 : (if t < st.N_T then |det (tetB st t)| / 6 else st.V t) ≠ 0 := by
    simpa [computePhi] using hV
  simp only [computePhi, if_pos (And.intro ht h2)]
  norm_num +decide [Chi, Fin.sum_univ_four, Fin.sum_univ_three]
  ring

/-- Witness for `computePhi_rows_sum_zero` on the unit tetrahedron. -/
theorem computePhi_rows_sum_zero_witness :
    0 < stC7.N_T ∧ (computePhi stC7).V 0 ≠ 0 ∧
      ∑ m, (computePhi stC7).Phi 0 m 0 = 0 := by
  have h1 : (0 : ℕ) < stC7.N_T := by norm_num [stC7, stTriv]
  have h2 : (computePhi stC7).V 0 ≠ 0 := by
    norm_num +decide [computePhi, det, tetB, stC7, stTriv]
  exact ⟨h1, h2, computePhi_rows_sum_zero stC7 0 h1 h2 0⟩

/-- C8: throughout `relax` — any number of outer iterations, with or
without a record file — and in every `solve_CG` call, the rows of `U`
belonging to fixed nodes (`var v = false`) are never modified: the CG
update touches only rows with `var v = true`. -/
theorem relax_preserves_fixed_U (lu : ℚ → ℚ × ℚ × ℚ) (sq : ℚ → ℚ)
    (stepper crit : ℚ) (i_max : ℕ) (hasRec : Bool) (st : State)
    (v : ℕ) (i : Fin 3) (h : st.var v = false) :
    (relax lu sq stepper i_max crit hasRec st).2.U v i = st.U v i ∧
      (solve_CG stepper st).2.U v i = st.U v i := by
  constructor
  · have hvar0 : (updateGloFAndK lu sq st).var v = false := by
      rw [updateGloFAndK_preserves_var]
      exact h
    simp only [relax]
    rw [relaxLoop_preserves_fixed lu sq stepper crit hasRec i_max 0 _ _ v i hvar0]
    exact congrFun (congrFun (updateGloFAndK_preserves_U lu sq st) v) i
  · exact solve_CG_preserves_fixed stepper st v i h

/-- Witness for `relax_preserves_fixed_U`: node `0` of `stTriv` is fixed
and survives a full `relax` run (and a single `solve_CG`) unchanged. -/
theorem relax_preserves_fixed_U_witness :
    stTriv.var 0 = false ∧
      ((relax lu0 sq1 (33 / 500) 8 (1 / 100) true stTriv).2.U 0 0 = stTriv.U 0 0 ∧
        (solve_CG (33 / 500) stTriv).2.U 0 0 = stTriv.U 0 0) :=
  ⟨rfl, relax_preserves_fixed_U lu0 sq1 (33 / 500) (1 / 100) 8 true stTriv 0 0 rfl⟩

/-- C9: `setMeshTets` subtracts 1 from every entry of every input
array, unconditionally — also when the tetrahedra are passed directly
through the API rather than read from a 1-based file — so a caller
supplying 0-based indices gets a connectivity table shifted down by one,
with index `−1` for corner `0` (concrete instance included). -/
theorem setMeshTets_subtracts_one :
    (∀ (data : List (List ℤ)) (t m : ℕ),
        ((setMeshTets data).T[t]?.bind fun row => row[m]?)
            = (data[t]?.bind fun row => row[m]?).map (fun x => x - 1) ∧
          (setMeshTets data).N_T = data.length) ∧
      (setMeshTets [[1, 2, 3, 4]]).T = [[0, 1, 2, 3]] ∧
      (setMeshTets [[0, 1, 2, 3]]).T = [[-1, 0, 1, 2]] := by
  refine ⟨fun data t m => ⟨?_, rfl⟩, by decide, by decide⟩
  simp only [setMeshTets, List.getElem?_map]
  cases data[t]? with
  | none => rfl
  | some row => simp [List.getElem?_map]

/-- C10: the index-accumulate implementation `mulK` and the COO-matrix
implementation `mulK_sparse` agree on every displacement input `u` and every
connection table: both produce
`f[v] = Σ over connections k = (v, j) of K_glo_conn[k] · u[j]`,
and every row `v` that never appears as a first connection element is left
at zero. -/
theorem mulK_eq_mulK_sparse (conns : List Conn) (u : Arr) (v : ℕ) (i : Fin 3) :
    mulK conns u v i = mulK_sparse conns u v i ∧
      ((∀ c ∈ conns, c.1.1 ≠ v) → mulK conns u v i = 0) := by
  constructor
  · rw [mulK, mulK_foldl_acc]
    simp [zeroArr]
  · intro h
    rw [mulK, mulK_foldl_acc]
    simp only [zeroArr, zero_add, mulK_sparse]
    rw [List.sum_eq_zero]
    intro x hx
    rcases List.mem_map.mp hx with ⟨c, hc, rfl⟩
    rw [if_neg (h c hc)]

/-- Witness for `mulK_eq_mulK_sparse` at a concrete one-connection table and
a row not referenced by any connection. -/
theorem mulK_eq_mulK_sparse_witness :
    mulK [((0, 0), fun _ _ => (1 : ℚ))] (fun _ _ => 1) 1 0 =
        mulK_sparse [((0, 0), fun _ _ => (1 : ℚ))] (fun _ _ => 1) 1 0 ∧
      mulK [((0, 0), fun _ _ => (1 : ℚ))] (fun _ _ => 1) 1 0 = 0 :=
  ⟨(mulK_eq_mulK_sparse _ _ 1 0).1,
   (mulK_eq_mulK_sparse [((0, 0), fun _ _ => (1 : ℚ))] (fun _ _ => 1) 1 0).2
     (by decide)⟩

end Saenopy
